import Mathlib

/-!
Verification of the Node.js storage backend of this repository
(`src/backend`): the `/files` routes (GET with Range, PUT with offset,
DELETE, chmod, truncate, utimes, rename), the `/mkdir` route, the
`/list/updatedMetadata` route backed by `FileDAO`, and the chokidar
watcher's unlink/add rename-correlation in `src/backend/index.js`.

Modelling conventions:
* JS strings (query parameters, db keys) are `List Char`.
* The on-disk tree under `ROOT_DIR` is a partial map from canonical
  component lists (the result of `path.join(ROOT_DIR, rel)` relativized
  to `ROOT_DIR`) to entries.  `ROOT_DIR` itself always exists (the
  server's bootstrap creates it), which `fsStat` encodes by answering a
  directory for the empty component list.
* Wall-clock timestamps produced by writes are not modelled (no claim
  reads them); chmod/utimes effects are kept in a per-entry `Meta`.
* The `backendChanges` set used to suppress watcher echo of the HTTP
  routes' own mutations is modelled inside the watcher state machine;
  the route handlers' `backendChanges.add` calls have no effect that
  any claim observes, so the route models do not thread the set.
-/

namespace BackendModel

/-- A JavaScript string, as its sequence of characters. -/
abbrev JStr := List Char

/-- A path component (one `/`-separated piece). -/
abbrev Comp := List Char

/-- A canonical path under `ROOT_DIR`, as its list of components
(the empty list is `ROOT_DIR` itself). -/
abbrev CPath := List Comp

/-- Split a string on `/` (model of `String.prototype.split('/')`-style
decomposition used to reason about Node's `path.join` normalization). -/
def splitSlash : JStr → List Comp
  | [] => [[]]
  | c :: cs =>
    if c = '/' then [] :: splitSlash cs
    else
      match splitSlash cs with
      | [] => [[c]]
      | w :: ws => (c :: w) :: ws

/-- Normalization pass of Node's `path.join`: empty components and `.`
are dropped, `..` pops the previous component.  (`..` sequences that
would climb above `ROOT_DIR` are truncated at the root; no claim
exercises such inputs.) -/
def resolveComps : CPath → List Comp → CPath
  | acc, [] => acc
  | acc, w :: ws =>
    if w = [] ∨ w = ['.'] then resolveComps acc ws
    else if w = ['.', '.'] then resolveComps acc.dropLast ws
    else resolveComps (acc ++ [w]) ws

/-- `canonComps rel` models `path.join(ROOT_DIR, rel)` relativized to
`ROOT_DIR`. -/
def canonComps (s : JStr) : CPath :=
  resolveComps [] (splitSlash s)

/-- The `'././'` prefix normalization each `/files` handler applies:
`if (relPath.startsWith('././')) relPath = relPath.slice(2);`. -/
def codeNorm (r : JStr) : JStr :=
  if ['.', '/', '.', '/'].isPrefixOf r then r.drop 2 else r

/-- Model of `path.dirname` for slash-normalized relative inputs:
everything before the last component, `.` when there is none.  Only db
row fields (which no claim inspects) depend on it. -/
def dirnameJ (s : JStr) : JStr :=
  let parts := splitSlash s
  let front := parts.dropLast
  if front = [] then ['.'] else (front.intersperse ['/']).flatten

/-- Model of `path.basename` for slash-normalized inputs: the last
nonempty component. -/
def basenameJ (s : JStr) : JStr :=
  ((splitSlash s).filter (fun w => decide (w ≠ []))).getLastD []

/-- Per-entry metadata: 12-bit mode, atime/mtime in seconds. -/
structure Meta where
  mode : Nat
  atimeS : Int
  mtimeS : Int
deriving DecidableEq, Repr

/-- Default metadata of a file created by the PUT handler (0o644). -/
def fileMeta : Meta := ⟨0o644, 0, 0⟩

/-- Metadata of a directory created by mkdir (0o755). -/
def dirMeta : Meta := ⟨0o755, 0, 0⟩

/-- An entry of the storage tree: a regular file with its byte content
(bytes as `Nat`), or a directory. -/
inductive FsEntry
  | file (content : List Nat) (meta : Meta)
  | dir (meta : Meta)
deriving DecidableEq, Repr

/-- The storage tree under `ROOT_DIR`: canonical path → entry. -/
abbrev Fs := CPath → Option FsEntry

/-- `fs.promises.stat` / `fs.existsSync` view: `ROOT_DIR` (empty
component list) always exists as a directory (bootstrap creates it). -/
def fsStat (fs : Fs) (p : CPath) : Option FsEntry :=
  if p = [] then some (.dir dirMeta) else fs p

/-- `fs.existsSync(path.join(ROOT_DIR, …))`. -/
def fsExists (fs : Fs) (p : CPath) : Bool :=
  (fsStat fs p).isSome

/-- Point update of the storage tree. -/
def fsSet (fs : Fs) (p : CPath) (e : Option FsEntry) : Fs :=
  fun q => if q = p then e else fs q

/-- `fs.promises.rm(abs, { recursive: true, force: true })`: removes the
path and every path below it. -/
def removeSubtree (fs : Fs) (p : CPath) : Fs :=
  fun q => if p.isPrefixOf q then none else fs q

/-- `fs.promises.rename(oldAbs, newAbs)`: the subtree rooted at `src`
re-appears rooted at `dst`. -/
def moveSubtree (fs : Fs) (src dst : CPath) : Fs :=
  fun q =>
    if dst.isPrefixOf q then fs (src ++ q.drop dst.length)
    else if src.isPrefixOf q then none
    else fs q

/-- `fs.promises.mkdir(p, { recursive: true })`: every missing ancestor
of `p` (and `p` itself) becomes a directory. -/
def mkdirRec (fs : Fs) (p : CPath) : Fs :=
  fun q =>
    if q ≠ [] ∧ q.isPrefixOf p ∧ fs q = none then some (.dir dirMeta)
    else fs q

/-- A row of the `files` table (`src/backend/index.js` bootstrap
schema).  The surrogate `id`/`parent_id` columns are not modelled: no
claim depends on them. -/
structure Row where
  path : JStr
  parent : JStr
  name : JStr
  isDir : Bool
  size : Nat
  mtime : Int
  permissions : JStr
  nlink : Nat
  version : Nat
deriving DecidableEq, Repr

/-- The metadata database: `path` (a JS string, the table's UNIQUE key)
→ row. -/
abbrev Db := JStr → Option Row

/-- `FileDAO.deleteFile`: `DELETE FROM files WHERE path = ?`. -/
def daoDeleteFile (db : Db) (key : JStr) : Db :=
  fun k => if k = key then none else db k

/-- `FileDAO.updateFile`: upsert on `path`; on conflict size, mtime,
permissions, nlink are refreshed and `version` incremented.  The
handlers always pass non-null permissions/nlink, so the SQL `COALESCE`
branches always take the excluded value. -/
def daoUpdateFile (db : Db) (r : Row) : Db :=
  fun k =>
    if k = r.path then
      match db r.path with
      | none => some { r with version := 1 }
      | some old =>
        some { old with
          size := r.size, mtime := r.mtime,
          permissions := r.permissions, nlink := r.nlink,
          version := old.version + 1 }
    else db k

/-- `FileDAO.rename`: `UPDATE files SET path=?, parent_id=?, parent=?,
name=?, version=version+1 WHERE path=?`.  With no row at the old path
the UPDATE affects 0 rows and the promise resolves
`{error: 'File not found.'}`, which the callers ignore; when a row
exists at the old path and a **different** row already occupies the new
path, the UNIQUE constraint on `path` rejects the UPDATE
(`SQLITE_CONSTRAINT`), the promise rejects and the caller's catch
answers 500 — modelled as `none`. -/
def daoRename (db : Db) (oldKey newKey : JStr) : Option Db :=
  match db oldKey with
  | none => some db
  | some r =>
    if oldKey ≠ newKey ∧ (db newKey).isSome then none
    else
      some fun k =>
        if k = newKey then
          some { r with path := newKey, parent := dirnameJ newKey,
                        name := basenameJ newKey, version := r.version + 1 }
        else if k = oldKey then none
        else db k

/-- `FileDAO.createDirectory`: a plain `INSERT INTO files(...)`.  When
a row already occupies `path`, the UNIQUE constraint rejects the INSERT
(`SQLITE_CONSTRAINT`), the promise rejects and the mkdir route's catch
answers 500 — modelled as `none`.  (The route does not pass `nlink`;
the model keeps the row's default.) -/
def daoCreateDirectory (db : Db) (r : Row) : Option Db :=
  if (db r.path).isSome then none
  else some fun k => if k = r.path then some { r with version := 1 } else db k

/-- `FileDAO.syncMetadataFromDisk relKey`: re-stats the path on disk and
refreshes size/nlink/mtime of the row (no-op when the path or the row
is missing). -/
def daoSync (fs : Fs) (db : Db) (relKey : JStr) : Db :=
  match fsStat fs (canonComps relKey), db relKey with
  | some e, some old =>
    let sz := match e with | .file c _ => c.length | .dir _ => 0
    let mt := match e with | .file _ m => m.mtimeS | .dir m => m.mtimeS
    fun k =>
      if k = relKey then
        some { old with size := sz, mtime := mt, version := old.version + 1 }
      else db k
  | _, _ => db

/-! ### The byte-write model (`fd.write(chunk, 0, chunk.length, position)`) -/

/-- Write byte `b` at position `i`, zero-filling any hole past the
current end of file (POSIX pwrite of a single byte). -/
def setByte (c : List Nat) (i : Nat) (b : Nat) : List Nat :=
  (c ++ List.replicate (i + 1 - c.length) 0).set i b

/-- Write a chunk byte-for-byte starting at `off` (POSIX pwrite). -/
def writeAt : List Nat → Nat → List Nat → List Nat
  | c, _, [] => c
  | c, off, b :: bs => writeAt (setByte c off b) (off + 1) bs

/-- The PUT handler's chunk loop: each chunk is written at the running
cursor, which starts at `off` and advances by the chunk's length;
returns the final content and `writtenTotal`. -/
def writeChunks : List Nat → Nat → List (List Nat) → List Nat × Nat
  | c, _, [] => (c, 0)
  | c, off, ch :: rest =>
    let c1 := writeAt c off ch
    let (c2, w) := writeChunks c1 (off + ch.length) rest
    (c2, ch.length + w)

/-! ### GET /files (src/backend/routes/filesRoutes.js, router.get("/")) -/

/-- `parseRange(rangeHeader, fileSize)`.  The regex groups
`bytes=(\d*)-(\d*)` are modelled as `Option Nat` (an empty group is JS-
falsy, hence `none`; a nonempty group of digits always parses, so the
`isNaN` branches of the source are unreachable).  Only the end is
clamped: `end = Math.min(end, fileSize - 1)`. -/
def parseRange (g1 g2 : Option Nat) (fileSize : Nat) : Nat × Int :=
  let start : Nat := g1.getD 0
  let endV : Int := match g2 with
    | some e => (e : Int)
    | none => (fileSize : Int) - 1
  (start, min endV ((fileSize : Int) - 1))

/-- Outcome of a GET /files request.

* `notFound` — 404 `{error}` when `existsSync` fails.
* `full len body` — 200, `Content-Length: len`, whole file piped.
* `ranged s e total clen body` — 206 with `Content-Range: bytes s-e/total`
  and `Content-Length: clen`, body piped by `createReadStream {start, end}`.
* `rangeStreamError s e` — the 206 headers were written but
  `fs.createReadStream(filePath, {start, end})` with `start > end` (or a
  negative `end`) throws `ERR_OUT_OF_RANGE`; the handler falls into its
  catch and attempts the 500 `{error}` response.  No body bytes are
  delivered.
* `dirStreamError` — the path is a directory: streaming it fails with
  `EISDIR` after headers (no claim exercises directories here). -/
inductive GetResult
  | notFound
  | full (contentLength : Nat) (body : List Nat)
  | ranged (start : Nat) (endIncl : Int) (total : Nat)
           (contentLength : Int) (body : List Nat)
  | rangeStreamError (start : Nat) (endIncl : Int)
  | dirStreamError
deriving DecidableEq, Repr

/-- The delivered response body, when the handler completes a successful
streamed response (`none` on every error outcome). -/
def GetResult.deliveredBody : GetResult → Option (List Nat)
  | .full _ b => some b
  | .ranged _ _ _ _ b => some b
  | _ => none

/-- GET /files handler.  `range = none` models a request without a
`Range` header; `range = some (g1, g2)` carries the two regex groups. -/
def getFiles (fs : Fs) (relPath0 : JStr) (range : Option (Option Nat × Option Nat)) :
    GetResult :=
  let canon := canonComps (codeNorm relPath0)
  match fsStat fs canon with
  | none => .notFound
  | some (.dir _) => .dirStreamError
  | some (.file c _) =>
    let total := c.length
    match range with
    | none => .full total c
    | some (g1, g2) =>
      let se := parseRange g1 g2 total
      let s := se.1
      let e := se.2
      if (s : Int) > e then .rangeStreamError s e
      else .ranged s e total (e - s + 1) ((c.drop s).take (e - s + 1).toNat)

/-! ### PUT /files (router.put("/")) -/

/-- Response of the PUT handler: `saved` is the 200
`{message: "File correctly saved.", written: writtenTotal}` body, `err`
models the 400/500 `{error}` responses. -/
inductive PutResp
  | err (status : Nat)
  | saved (message : JStr) (written : Nat)
deriving DecidableEq, Repr

/-- The 200 message literal of the PUT handler. -/
def savedMsg : JStr :=
  ['F', 'i', 'l', 'e', ' ', 'c', 'o', 'r', 'r', 'e', 'c', 't', 'l', 'y',
   ' ', 's', 'a', 'v', 'e', 'd', '.']

structure PutOut where
  resp : PutResp
  fs : Fs
  db : Db

/-- The open dance of the PUT handler: flag `w+` truncates when
`offset === 0`, else `r+`; an `ENOENT` on `r+` falls back to `w+`
(fresh empty file); opening a directory fails (`EISDIR`, not `ENOENT`)
and is rethrown.  Returns initial content and metadata, `none` on
failure. -/
def putOpen (st : Option FsEntry) (offset : Nat) : Option (List Nat × Meta) :=
  match st with
  | some (.file c m) => if offset = 0 then some ([], m) else some (c, m)
  | some (.dir _) => none
  | none => some ([], fileMeta)

/-- PUT /files handler over the model state.  `offset` is the parsed
`offset` query parameter (default `"0"`), `chunks` the request body's
chunk sequence. -/
def putFiles (fs : Fs) (db : Db) (relPath0 : JStr) (offset : Nat)
    (chunks : List (List Nat)) : PutOut :=
  let r := codeNorm relPath0
  let canon := canonComps r
  let parent := canon.dropLast
  if fsExists fs parent then
    match putOpen (fsStat fs canon) offset with
    | none => ⟨.err 500, fs, db⟩
    | some (c0, m0) =>
      let cw := writeChunks c0 offset chunks
      let fs' := fsSet fs canon (some (.file cw.1 m0))
      let row : Row :=
        { path := r, parent := dirnameJ r, name := basenameJ r,
          isDir := false, size := cw.1.length,
          mtime := m0.mtimeS, permissions := [], nlink := 1, version := 1 }
      let db' := daoSync fs' (daoUpdateFile db row) (dirnameJ r)
      ⟨.saved savedMsg cw.2, fs', db'⟩
  else ⟨.err 400, fs, db⟩

/-! ### DELETE /files (router.delete("/")) -/

/-- Response of the DELETE handler: 404 `{error}` when the stat fails,
200 `{message}` after the removal. -/
inductive DelResp
  | notFound
  | deleted
deriving DecidableEq, Repr

structure DelOut where
  resp : DelResp
  fs : Fs
  db : Db

/-- DELETE /files handler: stat, then `rm -r` for a directory or
`unlink` for a file, then `deleteFile` + `syncMetadataFromDisk(parent)`
in the db. -/
def deleteFiles (fs : Fs) (db : Db) (relPath0 : JStr) : DelOut :=
  let r := codeNorm relPath0
  let canon := canonComps r
  match fsStat fs canon with
  | none => ⟨.notFound, fs, db⟩
  | some (.dir _) =>
    let fs' := removeSubtree fs canon
    ⟨.deleted, fs', daoSync fs' (daoDeleteFile db r) (dirnameJ r)⟩
  | some (.file _ _) =>
    let fs' := fsSet fs canon none
    ⟨.deleted, fs', daoSync fs' (daoDeleteFile db r) (dirnameJ r)⟩

/-! ### PATCH /files/chmod, /files/truncate, /files/utimes -/

/-- A `{ok: true}` / `{error}` response with its status code. -/
inductive OkResp
  | ok
  | err (status : Nat)
deriving DecidableEq, Repr

structure RenOut where
  resp : OkResp
  fs : Fs
  db : Db

/-- The `"/.Trash-"` literal of the rename route's restore check. -/
def trashPat : JStr := ['/', '.', 'T', 'r', 'a', 's', 'h', '-']

/-- PATCH /files/rename handler, following the source order: normalize
both paths, reject missing ones (400), stat + unlink an existing
destination (a directory destination makes `unlink` throw `EISDIR`,
rethrown → 500), create the destination's parent when missing and
`oldRelPath.startsWith("/.Trash-")` (else 404), then
`fs.promises.rename` (`ENOENT` on a missing source → 404) and the db
row rename. -/
def renameFiles (fs : Fs) (db : Db) (oldR0 newR0 : JStr) : RenOut :=
  let oldR := codeNorm oldR0
  let newR := codeNorm newR0
  if oldR = [] ∨ newR = [] then ⟨.err 400, fs, db⟩
  else
    let cOld := canonComps oldR
    let cNew := canonComps newR
    let isRestore := trashPat.isPrefixOf oldR
    match fsStat fs cNew with
    | some (.dir _) => ⟨.err 500, fs, db⟩
    | st =>
      let fs1 := if st.isSome then fsSet fs cNew none else fs
      let db1 := if st.isSome then daoDeleteFile db newR else db
      let parentOk := fsExists fs1 cNew.dropLast
      if parentOk ∨ isRestore then
        let fs2 := if parentOk then fs1 else mkdirRec fs1 cNew.dropLast
        match fsStat fs2 cOld with
        | none => ⟨.err 404, fs2, db1⟩
        | some _ =>
          match daoRename db1 oldR newR with
          | none => ⟨.err 500, moveSubtree fs2 cOld cNew, db1⟩
          | some db2 => ⟨.ok, moveSubtree fs2 cOld cNew, db2⟩
      else ⟨.err 404, fs1, db1⟩

/-! ### POST /mkdir (src/backend/routes/mkdirRoutes.js) -/

inductive MkResp
  | err (status : Nat)
  | created
deriving DecidableEq, Repr

structure MkOut where
  resp : MkResp
  fs : Fs
  db : Db

/-- POST /mkdir handler.  This route does not strip `'././'`.  The
source's second parent branch (re-creating `ROOT_DIR` itself when the
target is a direct child and `ROOT_DIR` vanished) is subsumed by
`fsStat`'s always-existing root.  The physical `fs.promises.mkdir` runs
before `createDirectory`, so when the INSERT rejects the route answers
500 with the directory already created on disk. -/
def mkdirHandler (fs : Fs) (db : Db) (relPath : JStr) : MkOut :=
  let canon := canonComps relPath
  let parent := canon.dropLast
  if ¬ fsExists fs parent ∧ parent ≠ [] then ⟨.err 400, fs, db⟩
  else if fsExists fs canon then ⟨.err 409, fs, db⟩
  else
    let row : Row :=
      { path := relPath, parent := dirnameJ relPath, name := basenameJ relPath,
        isDir := true, size := 0, mtime := 0,
        permissions := ['7', '5', '5'], nlink := 1, version := 1 }
    match daoCreateDirectory db row with
    | none => ⟨.err 500, fsSet fs canon (some (.dir dirMeta)), db⟩
    | some db' => ⟨.created, fsSet fs canon (some (.dir dirMeta)), db'⟩

/-! ### GET /list/updatedMetadata (src/backend/routes/listRoutes.js)
    and FileDAO.getFileByPath (src/backend/dao/fileDAO.js) -/

/-- What `FileDAO.getFileByPath` resolves with: the row when the SELECT
finds one, otherwise the literal object `{ error: 'Directory not
found.' }`.  Note it never resolves a falsy value. -/
inductive DaoGetResult
  | row (r : Row)
  | errObj
deriving DecidableEq, Repr

/-- `FileDAO.getFileByPath`. -/
def getFileByPath (db : Db) (p : JStr) : DaoGetResult :=
  match db p with
  | some r => .row r
  | none => .errObj

/-- JS truthiness of the resolved value: both variants are non-null
objects, hence truthy — the route's `if (!f)` test can never pass. -/
def DaoGetResult.truthy : DaoGetResult → Bool
  | .row _ => true
  | .errObj => true

/-- Response of the updatedMetadata route: 404 `{error: "Not found"}`
or 200 with the JSON-serialized resolved value. -/
inductive UMResp
  | notFound
  | json (f : DaoGetResult)
deriving DecidableEq, Repr

/-- The `"./storage"` literal of the route's path rewrite. -/
def storageLit : JStr := ['.', '/', 's', 't', 'o', 'r', 'a', 'g', 'e']

/-- GET /list/updatedMetadata handler: rewrite falsy/`"./storage"`
paths to `"."`, fetch via the DAO, 404 only when the resolved value is
falsy. -/
def updatedMetadata (db : Db) (p : JStr) : Nat × UMResp :=
  let p' := if p = [] ∨ p = storageLit then ['.'] else p
  let f := getFileByPath db p'
  if f.truthy = false then (404, .notFound) else (200, .json f)

/-! ### The chokidar watcher's unlink/add correlation
    (src/backend/index.js, watcher.on('unlink') / watcher.on('add')) -/

/-- Watcher state: the pending unlink (path whose 200 ms timer is
armed) and the `backendChanges` echo-suppression set. -/
structure WState where
  pendingUnlink : Option JStr
  bc : List JStr
deriving DecidableEq, Repr

/-- Discrete events driving the watcher: chokidar's `add`/`unlink`
callbacks and the firing of the 200 ms `setTimeout` armed for a path.
A `timer p` event ordered after an `add` models the add arriving
within the window (the cleared/replaced timer's callback re-checks
`pendingUnlink.path === fPath` and is a no-op, exactly as `clearTimeout`
makes it). -/
inductive WEvent
  | add (p : JStr)
  | unlink (p : JStr)
  | timer (p : JStr)
deriving DecidableEq, Repr

/-- `fs_change` emissions relevant to the correlation (paths are the
watcher's, before `clean`; `clean` is applied uniformly on emission and
does not affect which events fire). -/
inductive WEmit
  | rename (oldPath newPath : JStr)
  | add (p : JStr)
  | unlink (p : JStr)
deriving DecidableEq, Repr

/-- One watcher transition, from the source's handlers:

* `unlink p`: suppressed if `p ∈ backendChanges`; else any previous
  pending timer is cleared and `pendingUnlink := {path: p, timer}` is
  armed — nothing is emitted yet.
* `add p`: suppressed if `p ∈ backendChanges`; else if a pending unlink
  for a **different** path exists, the timer is cleared and a single
  `rename` is emitted; otherwise a plain `add` is emitted (a pending
  unlink for the *same* path is left armed, as in the source).
* `timer p`: emits the deferred `unlink` only if `p` is still the
  pending path. -/
def wStep (s : WState) : WEvent → WState × List WEmit
  | .unlink p =>
    if p ∈ s.bc then ({ s with bc := s.bc.erase p }, [])
    else ({ s with pendingUnlink := some p }, [])
  | .add p =>
    if p ∈ s.bc then ({ s with bc := s.bc.erase p }, [])
    else
      match s.pendingUnlink with
      | some q =>
        if q ≠ p then ({ s with pendingUnlink := none }, [.rename q p])
        else (s, [.add p])
      | none => (s, [.add p])
  | .timer p =>
    match s.pendingUnlink with
    | some q =>
      if q = p then ({ s with pendingUnlink := none }, [.unlink p])
      else (s, [])
    | none => (s, [])

/-- Run a sequence of watcher events, concatenating emissions. -/
def wRun (s : WState) : List WEvent → WState × List WEmit
  | [] => (s, [])
  | e :: es =>
    let r1 := wStep s e
    let r2 := wRun r1.1 es
    (r2.1, r1.2 ++ r2.2)

/-! ### Sample states used by the concrete witnesses -/

/-- The empty storage tree. -/
def fsEmpty : Fs := fun _ => none

/-- The empty metadata database. -/
def dbEmpty : Db := fun _ => none

/-- A tree holding the single file `./a` with bytes `[10, 20, 30, 40, 50]`. -/
def fsA : Fs := fsSet fsEmpty [['a']] (some (.file [10, 20, 30, 40, 50] fileMeta))

/-- `fsA` plus a second file `./b` with bytes `[7, 7]`. -/
def fsAB : Fs := fsSet fsA [['b']] (some (.file [7, 7] fileMeta))

/-- A tree holding `./d` (a directory) and `./d/e` (a file). -/
def fsDir : Fs :=
  fsSet (fsSet fsEmpty [['d']] (some (.dir dirMeta)))
    [['d'], ['e']] (some (.file [1] fileMeta))

/-- A tree holding only the trashed file `.Trash-1/x`. -/
def fsTrash : Fs :=
  fsSet fsEmpty [['.', 'T', 'r', 'a', 's', 'h', '-', '1'], ['x']]
    (some (.file [5] fileMeta))

/-- Whether a stat result is a directory (used to phrase decidable
"not a directory" hypotheses). -/
def entryIsDir : Option FsEntry → Bool
  | some (.dir _) => true
  | _ => false

/-- A minimal metadata row keyed by `p` (the other fields are
irrelevant to the UNIQUE-constraint behaviour under study). -/
def sampleRow (p : JStr) : Row :=
  { path := p, parent := ['.'], name := p, isDir := false, size := 0,
    mtime := 0, permissions := [], nlink := 1, version := 1 }

/-- A database tracking exactly the listed path keys. -/
def dbTracking (ks : List JStr) : Db :=
  fun k => if k ∈ ks then some (sampleRow k) else none

/-! ### List/byte-level lemmas for the write model -/

theorem setByte_length (c : List Nat) (i b : Nat) :
    (setByte c i b).length = max c.length (i + 1) := by
  simp only [setByte, List.length_set, List.length_append, List.length_replicate]
  omega

theorem writeAt_length_ge (c : List Nat) (off : Nat) (b : List Nat) :
    c.length ≤ (writeAt c off b).length := by
  induction b generalizing c off with
  | nil => simp [writeAt]
  | cons x xs ih =>
    simp only [writeAt]
    calc c.length ≤ (setByte c off x).length := by rw [setByte_length]; omega
    _ ≤ _ := ih _ _

theorem writeAt_append (c : List Nat) (off : Nat) (b1 b2 : List Nat) :
    writeAt c off (b1 ++ b2) = writeAt (writeAt c off b1) (off + b1.length) b2 := by
  induction b1 generalizing c off with
  | nil => simp [writeAt]
  | cons x xs ih =>
    simp only [List.cons_append, writeAt, List.length_cons, List.append_eq]
    rw [ih]
    congr 1
    omega

theorem writeChunks_eq (c : List Nat) (off : Nat) (chs : List (List Nat)) :
    writeChunks c off chs =
      (writeAt c off chs.flatten, (chs.map List.length).sum) := by
  induction chs generalizing c off with
  | nil => simp [writeChunks, writeAt]
  | cons ch rest ih =>
    simp only [writeChunks, ih, List.flatten_cons, writeAt_append,
      List.map_cons, List.sum_cons]

theorem set_append_singleton (c : List Nat) (x y : Nat) :
    (c ++ [y]).set c.length x = c ++ [x] := by
  induction c with
  | nil => rfl
  | cons a as ih => simp [List.set, ih]

theorem writeAt_at_length (c b : List Nat) : writeAt c c.length b = c ++ b := by
  induction b generalizing c with
  | nil => simp [writeAt]
  | cons x xs ih =>
    simp only [writeAt]
    have h1 : setByte c c.length x = c ++ [x] := by
      simp [setByte, Nat.add_sub_cancel_left, set_append_singleton]
    rw [h1]
    have h2 : c.length + 1 = (c ++ [x]).length := by simp
    rw [h2, ih]
    simp

theorem writeAt_nil_zero (b : List Nat) : writeAt [] 0 b = b := by
  simpa using writeAt_at_length [] b

theorem getD_pad (c : List Nat) (k j : Nat) :
    (c ++ List.replicate k 0).getD j 0 = c.getD j 0 := by
  rcases Nat.lt_or_ge j c.length with h | h
  · exact List.getD_append _ _ _ _ h
  · rw [List.getD_append_right _ _ _ _ h, List.getD_eq_default _ _ h]
    rcases Nat.lt_or_ge (j - c.length) k with h2 | h2
    · rw [List.getD_eq_getElem _ _ (by simpa using h2)]
      simp
    · rw [List.getD_eq_default]
      simpa using h2

theorem setByte_getD_self (c : List Nat) (i b : Nat) :
    (setByte c i b).getD i 0 = b := by
  have h : i < (c ++ List.replicate (i + 1 - c.length) 0).length := by
    simp only [List.length_append, List.length_replicate]
    omega
  rw [setByte, List.getD_eq_getD_get?, List.get?_eq_getElem?,
    List.getElem?_set_self h]
  rfl

theorem setByte_getD_ne (c : List Nat) (i b j : Nat) (h : j ≠ i) :
    (setByte c i b).getD j 0 = c.getD j 0 := by
  rw [setByte, List.getD_eq_getD_get?, List.get?_eq_getElem?,
    List.getElem?_set_ne (Ne.symm h), ← List.get?_eq_getElem?,
    ← List.getD_eq_getD_get?, getD_pad]

theorem writeAt_getD_lt (c : List Nat) (off : Nat) (b : List Nat) (j : Nat)
    (h : j < off) : (writeAt c off b).getD j 0 = c.getD j 0 := by
  induction b generalizing c off with
  | nil => simp [writeAt]
  | cons x xs ih =>
    simp only [writeAt]
    rw [ih _ _ (by omega), setByte_getD_ne _ _ _ _ (by omega)]

theorem writeAt_getD_ge (c : List Nat) (off : Nat) (b : List Nat) (j : Nat)
    (h : off + b.length ≤ j) : (writeAt c off b).getD j 0 = c.getD j 0 := by
  induction b generalizing c off with
  | nil => simp [writeAt]
  | cons x xs ih =>
    simp only [writeAt]
    rw [ih _ _ (by simp at h; omega), setByte_getD_ne _ _ _ _ (by simp at h; omega)]

theorem writeAt_getD_in (c : List Nat) (off : Nat) (b : List Nat) (i : Nat)
    (h : i < b.length) :
    (writeAt c off b).getD (off + i) 0 = b.getD i 0 := by
  induction b generalizing c off i with
  | nil => simp at h
  | cons x xs ih =>
    cases i with
    | zero =>
      simp only [writeAt, Nat.add_zero]
      rw [writeAt_getD_lt _ _ _ _ (by omega), setByte_getD_self]
      rfl
    | succ i' =>
      simp only [writeAt]
      have h2 : off + (i' + 1) = (off + 1) + i' := by omega
      rw [h2, ih _ _ _ (by simp at h; omega)]
      rfl

/-! ### Path-normalization lemmas -/

theorem isPrefixOf_self (l : CPath) : l.isPrefixOf l = true := by
  induction l with
  | nil => rfl
  | cons a as ih => simp [List.isPrefixOf, ih]

theorem isPrefixOf_length_le {l r : CPath} (h : l.isPrefixOf r = true) :
    l.length ≤ r.length := by
  induction l generalizing r with
  | nil => simp
  | cons a as ih =>
    cases r with
    | nil => simp [List.isPrefixOf] at h
    | cons b bs =>
      simp only [List.isPrefixOf, Bool.and_eq_true] at h
      simpa using ih h.2

theorem isPrefixOf_dropLast_self (l : CPath) (h : l ≠ []) :
    l.isPrefixOf l.dropLast = false := by
  cases hp : l.isPrefixOf l.dropLast with
  | false => rfl
  | true =>
    have := isPrefixOf_length_le hp
    rw [List.length_dropLast] at this
    have : l.length = 0 := by omega
    exact absurd (List.eq_nil_of_length_eq_zero this) h

theorem fsStat_ne_nil {fs : Fs} {p : CPath} {c : List Nat} {m : Meta}
    (h : fsStat fs p = some (.file c m)) : p ≠ [] := by
  intro hp
  rw [hp] at h
  simp [fsStat] at h

theorem fsStat_fsSet_ne (fs : Fs) (p q : CPath) (e : Option FsEntry)
    (h : q ≠ p) : fsStat (fsSet fs p e) q = fsStat fs q := by
  simp [fsStat, fsSet, h]

theorem fsStat_none_ne_nil {fs : Fs} {p : CPath} (h : fsStat fs p = none) :
    p ≠ [] := by
  intro hp
  rw [hp] at h
  simp [fsStat] at h

theorem fs_of_fsStat {fs : Fs} {p : CPath} {e : FsEntry}
    (h : fsStat fs p = some e) (hp : p ≠ []) : fs p = some e := by
  simpa [fsStat, hp] using h

/-! ### Congruence of the /files handlers in the canonical path
(the raw `relPath` string reaches only db row keys, which are neither
part of the response nor of the storage tree) -/

theorem daoDeleteFile_self (db : Db) (k : JStr) : daoDeleteFile db k k = none := by
  simp [daoDeleteFile]

theorem daoRename_eq_some_of_dest_none (db : Db) (o nk : JStr)
    (h : db nk = none) : ∃ d, daoRename db o nk = some d := by
  cases ho : db o with
  | none => exact ⟨db, by simp [daoRename, ho]⟩
  | some r =>
    refine ⟨fun k =>
      if k = nk then
        some { r with path := nk, parent := dirnameJ nk,
                      name := basenameJ nk, version := r.version + 1 }
      else if k = o then none
      else db k, ?_⟩
    simp [daoRename, ho, h]

theorem getD_drop (c : List Nat) (S i : Nat) :
    (c.drop S).getD i 0 = c.getD (S + i) 0 := by
  induction S generalizing c with
  | zero => simp
  | succ S' ih =>
    cases c with
    | nil => simp
    | cons a as =>
      rw [List.drop_succ_cons, ih]
      have h2 : S' + 1 + i = (S' + i) + 1 := by omega
      rw [h2]
      rfl

theorem getD_take (c : List Nat) (k i : Nat) (h : i < k) :
    (c.take k).getD i 0 = c.getD i 0 := by
  rw [List.getD_eq_getD_get?, List.getD_eq_getD_get?, List.get?_eq_getElem?,
    List.get?_eq_getElem?, List.getElem?_take_of_lt h]

theorem canon_nil : canonComps ([] : JStr) = [] := rfl

theorem fsSet_self (fs : Fs) (p : CPath) (e : Option FsEntry) :
    fsSet fs p e p = e := by
  simp [fsSet]

theorem fsExists_fsSet_ne (fs : Fs) (p q : CPath) (e : Option FsEntry)
    (h : q ≠ p) : fsExists (fsSet fs p e) q = fsExists fs q := by
  rw [fsExists, fsExists, fsStat_fsSet_ne _ _ _ _ h]

theorem dropLast_ne_self {l : CPath} (h : l ≠ []) : l.dropLast ≠ l := by
  intro he
  have := congrArg List.length he
  rw [List.length_dropLast] at this
  have hl : 0 < l.length := List.length_pos.mpr h
  omega

theorem putFiles_success (fs : Fs) (db : Db) (r : JStr) (off : Nat)
    (chs : List (List Nat)) (c0 : List Nat) (m0 : Meta)
    (hpar : fsExists fs ((canonComps (codeNorm r)).dropLast) = true)
    (hopen : putOpen (fsStat fs (canonComps (codeNorm r))) off = some (c0, m0)) :
    (putFiles fs db r off chs).resp =
      .saved savedMsg ((chs.map List.length).sum) ∧
    (putFiles fs db r off chs).fs (canonComps (codeNorm r)) =
      some (.file (writeAt c0 off chs.flatten) m0) := by
  simp only [putFiles, hpar, if_true, hopen, writeChunks_eq]
  exact ⟨trivial, fsSet_self _ _ _⟩

/-! ### Claim theorems -/

/-- C8: When the watcher sees an `unlink` for `p` followed, before the
200 ms timer fires, by an `add` for a different path `q`, it emits the
single `fs_change` `{op: rename, oldPath: p, newPath: q}` and no
separate `unlink`/`add` events; an `unlink` whose timer fires without
such an `add` is emitted as an `unlink` event. -/
theorem watcher_unlink_add_correlation :
    (∀ (s : WState) (p q : JStr), p ∉ s.bc → q ∉ s.bc → p ≠ q →
       (wRun s [.unlink p, .add q]).2 = [.rename p q]) ∧
    (∀ (s : WState) (p : JStr), p ∉ s.bc →
       (wRun s [.unlink p, .timer p]).2 = [.unlink p]) := by
  constructor
  · intro s p q hp hq hne
    simp [wRun, wStep, hp, hq, if_neg hne]
  · intro s p hp
    simp [wRun, wStep, hp]

/-- C8 witness: a concrete unlink/add pair within the window yields the
single rename event, and a lone unlink whose timer fires yields the
deferred unlink event. -/
theorem watcher_unlink_add_correlation_witness :
    (['a'] : JStr) ∉ ([] : List JStr) ∧ (['b'] : JStr) ∉ ([] : List JStr) ∧
    (['a'] : JStr) ≠ ['b'] ∧
    (wRun ⟨none, []⟩ [.unlink ['a'], .add ['b']]).2 = [.rename ['a'] ['b']] ∧
    (wRun ⟨none, []⟩ [.unlink ['a'], .timer ['a']]).2 = [.unlink ['a']] :=
  ⟨by decide, by decide, by decide,
   watcher_unlink_add_correlation.1 ⟨none, []⟩ ['a'] ['b']
     (by decide) (by decide) (by decide),
   watcher_unlink_add_correlation.2 ⟨none, []⟩ ['a'] (by decide)⟩

/-- C4: (code bug evidence) For an untracked path the updatedMetadata
route does NOT answer 404: `FileDAO.getFileByPath` resolves the truthy
object `{error: 'Directory not found.'}` instead of a falsy value, so
the route's `if (!f)` 404 branch is unreachable and the route answers
200 with the error object as body.  Evaluated here at the untracked
path `./g` over the empty database. -/
theorem updatedMetadata_untracked_returns_200 :
    updatedMetadata dbEmpty ['.', '/', 'g'] = (200, .json .errObj) ∧
    (updatedMetadata dbEmpty ['.', '/', 'g']).1 ≠ 404 := by
  constructor
  · rfl
  · decide

/-- C1: For every PUT /files with offset 0 the file's content afterwards
is exactly the received body (truncated to its length); with offset
N > 0 the body is overlaid onto the existing content starting at byte N
without shrinking the file (bytes below N and at or beyond N + |B| keep
their values, padding holes with zeros); in both cases the 200 response
carries the `message` and `written` fields. -/
theorem put_offset_semantics :
    (∀ (fs : Fs) (db : Db) (r : JStr) (chs : List (List Nat)),
       fsExists fs ((canonComps (codeNorm r)).dropLast) = true →
       entryIsDir (fsStat fs (canonComps (codeNorm r))) = false →
       (putFiles fs db r 0 chs).resp =
         .saved savedMsg ((chs.map List.length).sum) ∧
       ∃ m, (putFiles fs db r 0 chs).fs (canonComps (codeNorm r)) =
         some (.file chs.flatten m)) ∧
    (∀ (fs : Fs) (db : Db) (r : JStr) (off : Nat) (c : List Nat) (m : Meta)
       (chs : List (List Nat)),
       0 < off →
       fsExists fs ((canonComps (codeNorm r)).dropLast) = true →
       fsStat fs (canonComps (codeNorm r)) = some (.file c m) →
       (putFiles fs db r off chs).resp =
         .saved savedMsg ((chs.map List.length).sum) ∧
       (putFiles fs db r off chs).fs (canonComps (codeNorm r)) =
         some (.file (writeAt c off chs.flatten) m) ∧
       c.length ≤ (writeAt c off chs.flatten).length ∧
       (∀ i, i < chs.flatten.length →
          (writeAt c off chs.flatten).getD (off + i) 0 = chs.flatten.getD i 0) ∧
       (∀ i, i < off →
          (writeAt c off chs.flatten).getD i 0 = c.getD i 0) ∧
       (∀ i, off + chs.flatten.length ≤ i →
          (writeAt c off chs.flatten).getD i 0 = c.getD i 0)) := by
  constructor
  · intro fs db r chs hpar hdir
    cases hst : fsStat fs (canonComps (codeNorm r)) with
    | none =>
      have hopen : putOpen (fsStat fs (canonComps (codeNorm r))) 0 =
          some ([], fileMeta) := by rw [hst]; rfl
      obtain ⟨h1, h2⟩ := putFiles_success fs db r 0 chs [] fileMeta hpar hopen
      rw [writeAt_nil_zero] at h2
      exact ⟨h1, fileMeta, h2⟩
    | some e =>
      cases e with
      | dir m => rw [hst] at hdir; simp [entryIsDir] at hdir
      | file c m =>
        have hopen : putOpen (fsStat fs (canonComps (codeNorm r))) 0 =
            some ([], m) := by rw [hst]; rfl
        obtain ⟨h1, h2⟩ := putFiles_success fs db r 0 chs [] m hpar hopen
        rw [writeAt_nil_zero] at h2
        exact ⟨h1, m, h2⟩
  · intro fs db r off c m chs hoff hpar hst
    have hopen : putOpen (fsStat fs (canonComps (codeNorm r))) off =
        some (c, m) := by
      rw [hst]
      simp [putOpen, Nat.pos_iff_ne_zero.mp hoff]
    obtain ⟨h1, h2⟩ := putFiles_success fs db r off chs c m hpar hopen
    refine ⟨h1, h2, writeAt_length_ge c off _, ?_, ?_, ?_⟩
    · intro i hi; exact writeAt_getD_in c off _ i hi
    · intro i hi; exact writeAt_getD_lt c off _ i hi
    · intro i hi; exact writeAt_getD_ge c off _ i hi

/-- C1 witness: PUT `./a` at offset 0 with chunks `[9]`,`[8,7]` leaves
exactly `[9,8,7]`; PUT at offset 2 with chunks `[9]`,`[8]` overlays the
5-byte file into `[10,20,9,8,50]`; both answer 200 `{message, written}`. -/
theorem put_offset_semantics_witness :
    fsExists fsA (([['a']] : CPath).dropLast) = true ∧
    entryIsDir (fsStat fsA [['a']]) = false ∧
    (putFiles fsA dbEmpty ['.', '/', 'a'] 0 [[9], [8, 7]]).resp =
      .saved savedMsg 3 ∧
    (∃ m, (putFiles fsA dbEmpty ['.', '/', 'a'] 0 [[9], [8, 7]]).fs [['a']] =
      some (.file [9, 8, 7] m)) ∧
    (0 : Nat) < 2 ∧
    fsStat fsA [['a']] = some (.file [10, 20, 30, 40, 50] fileMeta) ∧
    (putFiles fsA dbEmpty ['.', '/', 'a'] 2 [[9], [8]]).resp =
      .saved savedMsg 2 ∧
    (putFiles fsA dbEmpty ['.', '/', 'a'] 2 [[9], [8]]).fs [['a']] =
      some (.file [10, 20, 9, 8, 50] fileMeta) :=
  ⟨by decide, by decide,
   (put_offset_semantics.1 fsA dbEmpty ['.', '/', 'a'] [[9], [8, 7]]
      (by decide) (by decide)).1,
   (put_offset_semantics.1 fsA dbEmpty ['.', '/', 'a'] [[9], [8, 7]]
      (by decide) (by decide)).2,
   by decide, by decide,
   (put_offset_semantics.2 fsA dbEmpty ['.', '/', 'a'] 2 [10, 20, 30, 40, 50]
      fileMeta [[9], [8]] (by decide) (by decide) (by decide)).1,
   (put_offset_semantics.2 fsA dbEmpty ['.', '/', 'a'] 2 [10, 20, 30, 40, 50]
      fileMeta [[9], [8]] (by decide) (by decide) (by decide)).2.1⟩

/-- C9: For every successful PUT /files, `written` equals the total of
the chunk lengths, and the per-chunk cursor loop (cursor starts at
`offset`, advances by each chunk's length) is equivalent to one
contiguous write of the chunk concatenation at `offset`. -/
theorem put_written_total_and_contiguity :
    ∀ (fs : Fs) (db : Db) (r : JStr) (off : Nat) (chs : List (List Nat))
      (c0 : List Nat) (m0 : Meta),
      fsExists fs ((canonComps (codeNorm r)).dropLast) = true →
      putOpen (fsStat fs (canonComps (codeNorm r))) off = some (c0, m0) →
      (putFiles fs db r off chs).resp =
        .saved savedMsg ((chs.map List.length).sum) ∧
      writeChunks c0 off chs =
        (writeAt c0 off chs.flatten, (chs.map List.length).sum) ∧
      (putFiles fs db r off chs).fs (canonComps (codeNorm r)) =
        some (.file (writeAt c0 off chs.flatten) m0) := by
  intro fs db r off chs c0 m0 hpar hopen
  obtain ⟨h1, h2⟩ := putFiles_success fs db r off chs c0 m0 hpar hopen
  exact ⟨h1, writeChunks_eq c0 off chs, h2⟩

/-- C9 witness: PUT `./a` at offset 3 with chunks `[1,2]`,`[3]` answers
`written = 3` and writes the bytes contiguously at positions 3, 4, 5. -/
theorem put_written_total_and_contiguity_witness :
    fsExists fsA (([['a']] : CPath).dropLast) = true ∧
    putOpen (fsStat fsA [['a']]) 3 = some ([10, 20, 30, 40, 50], fileMeta) ∧
    (putFiles fsA dbEmpty ['.', '/', 'a'] 3 [[1, 2], [3]]).resp =
      .saved savedMsg 3 ∧
    (putFiles fsA dbEmpty ['.', '/', 'a'] 3 [[1, 2], [3]]).fs [['a']] =
      some (.file [10, 20, 30, 1, 2, 3] fileMeta) :=
  ⟨by decide, by decide,
   (put_written_total_and_contiguity fsA dbEmpty ['.', '/', 'a'] 3 [[1, 2], [3]]
      [10, 20, 30, 40, 50] fileMeta (by decide) (by decide)).1,
   (put_written_total_and_contiguity fsA dbEmpty ['.', '/', 'a'] 3 [[1, 2], [3]]
      [10, 20, 30, 40, 50] fileMeta (by decide) (by decide)).2.2⟩

/-- C2: GET /files on an existing file of size TOTAL with
`Range: bytes=S-E` (S ≤ E, S < TOTAL) answers 206 with
`Content-Range: bytes S-E'/TOTAL` and `Content-Length = E' - S + 1`
where E' is E clamped to TOTAL-1, and the body is the file bytes in
[S, E']; without a Range header it answers 200 with `Content-Length =
TOTAL` and the full body. -/
theorem get_range_semantics :
    (∀ (fs : Fs) (r : JStr) (c : List Nat) (m : Meta) (S E : Nat),
       fsStat fs (canonComps (codeNorm r)) = some (.file c m) →
       S ≤ E → S < c.length →
       ∃ body,
         getFiles fs r (some (some S, some E)) =
           .ranged S ((min E (c.length - 1) : Nat) : Int) c.length
             (((min E (c.length - 1) : Nat) : Int) - (S : Int) + 1) body ∧
         body.length = min E (c.length - 1) - S + 1 ∧
         (∀ i, i < body.length → body.getD i 0 = c.getD (S + i) 0)) ∧
    (∀ (fs : Fs) (r : JStr) (c : List Nat) (m : Meta),
       fsStat fs (canonComps (codeNorm r)) = some (.file c m) →
       getFiles fs r none = .full c.length c) := by
  constructor
  · intro fs r c m S E hst hSE hS
    have hlen : 1 ≤ c.length := by omega
    have hk1 : min E (c.length - 1) ≤ c.length - 1 := min_le_right _ _
    have hSk : S ≤ min E (c.length - 1) := le_min hSE (by omega)
    have hcast : ((c.length : Int) - 1) = ((c.length - 1 : Nat) : Int) := by omega
    have hmin : min (E : Int) ((c.length : Int) - 1) =
        ((min E (c.length - 1) : Nat) : Int) := by
      rw [hcast, Nat.cast_min]
    have hno : ¬ ((S : Int) > min (E : Int) ((c.length : Int) - 1)) := by
      rw [hmin]
      simp only [not_lt]
      exact_mod_cast hSk
    have htn : (((min E (c.length - 1) : Nat) : Int) - (S : Int) + 1).toNat =
        min E (c.length - 1) - S + 1 := by omega
    refine ⟨(c.drop S).take (min E (c.length - 1) - S + 1), ?_, ?_, ?_⟩
    · simp only [getFiles, hst, parseRange, Option.getD_some]
      rw [if_neg hno, hmin, htn]
    · rw [List.length_take, List.length_drop]
      omega
    · intro i hi
      rw [List.length_take, List.length_drop] at hi
      rw [getD_take _ _ _ (by omega), getD_drop]
  · intro fs r c m hst
    simp only [getFiles, hst]

/-- C2 witness: on the 5-byte file `./a`, `Range: bytes=1-100` answers
206 with range 1-4/5, length 4 and bytes `[20,30,40,50]`; without Range
the answer is 200 with the full 5 bytes. -/
theorem get_range_semantics_witness :
    fsStat fsA [['a']] = some (.file [10, 20, 30, 40, 50] fileMeta) ∧
    (1 : Nat) ≤ 100 ∧ (1 : Nat) < 5 ∧
    (∃ body,
       getFiles fsA ['.', '/', 'a'] (some (some 1, some 100)) =
         .ranged 1 ((min 100 (5 - 1) : Nat) : Int) 5
           (((min 100 (5 - 1) : Nat) : Int) - (1 : Int) + 1) body ∧
       body.length = min 100 (5 - 1) - 1 + 1 ∧
       (∀ i, i < body.length →
          body.getD i 0 = [10, 20, 30, 40, 50].getD (1 + i) 0)) ∧
    getFiles fsA ['.', '/', 'a'] none = .full 5 [10, 20, 30, 40, 50] :=
  ⟨by decide, by decide, by decide,
   get_range_semantics.1 fsA ['.', '/', 'a'] [10, 20, 30, 40, 50] fileMeta 1 100
     (by decide) (by decide) (by decide),
   get_range_semantics.2 fsA ['.', '/', 'a'] [10, 20, 30, 40, 50] fileMeta
     (by decide)⟩

/-- C3: (counterexample) on the 5-byte file `./a`, the range request
`bytes=7-9` has start ≥ size, but the handler does not return an empty
body: `createReadStream` is called with start 7 > clamped end 4, which
throws `ERR_OUT_OF_RANGE`, and the handler lands in its error path — no
body is delivered at all. -/
theorem range_start_beyond_eof_counterexample :
    getFiles fsA ['.', '/', 'a'] (some (some 7, some 9)) =
      .rangeStreamError 7 4 ∧
    (getFiles fsA ['.', '/', 'a'] (some (some 7, some 9))).deliveredBody ≠
      some [] := by
  constructor
  · decide
  · decide

/-- C3: (amended) range reads whose end exceeds the file size are
clamped at the top to size-1 (the start is not clamped); a request with
start ≥ size does not return an empty body — the range stream
construction fails (start exceeds the clamped end) and the handler
falls into its 500 error path, delivering no body. -/
theorem range_clamp_and_start_beyond_eof :
    (∀ (fs : Fs) (r : JStr) (c : List Nat) (m : Meta) (S E : Nat),
       fsStat fs (canonComps (codeNorm r)) = some (.file c m) →
       S < c.length → c.length ≤ E →
       ∃ body,
         getFiles fs r (some (some S, some E)) =
           .ranged S ((c.length : Int) - 1) c.length
             ((c.length : Int) - 1 - (S : Int) + 1) body ∧
         body.length = c.length - S) ∧
    (∀ (fs : Fs) (r : JStr) (c : List Nat) (m : Meta) (S E : Nat),
       fsStat fs (canonComps (codeNorm r)) = some (.file c m) →
       c.length ≤ S →
       getFiles fs r (some (some S, some E)) =
         .rangeStreamError S (min (E : Int) ((c.length : Int) - 1)) ∧
       (getFiles fs r (some (some S, some E))).deliveredBody = none) := by
  constructor
  · intro fs r c m S E hst hS hE
    have hmin : min (E : Int) ((c.length : Int) - 1) = (c.length : Int) - 1 := by
      rw [min_eq_right]
      omega
    have hno : ¬ ((S : Int) > min (E : Int) ((c.length : Int) - 1)) := by
      rw [hmin]
      omega
    have htn : ((c.length : Int) - 1 - (S : Int) + 1).toNat = c.length - S := by
      omega
    refine ⟨(c.drop S).take (c.length - S), ?_, ?_⟩
    · simp only [getFiles, hst, parseRange, Option.getD_some]
      rw [if_neg hno, hmin, htn]
    · rw [List.length_take, List.length_drop]
      omega
  · intro fs r c m S E hst hS
    have hyes : (S : Int) > min (E : Int) ((c.length : Int) - 1) := by
      have h1 : min (E : Int) ((c.length : Int) - 1) ≤ (c.length : Int) - 1 :=
        min_le_right _ _
      omega
    constructor
    · simp only [getFiles, hst, parseRange, Option.getD_some]
      rw [if_pos hyes]
    · simp only [getFiles, hst, parseRange, Option.getD_some]
      rw [if_pos hyes]
      rfl

/-- C3 witness for the amended statement: `bytes=2-9` on the 5-byte
file is served as range [2, 4] (3 bytes); `bytes=5-9` (start = size)
takes the error path and delivers no body. -/
theorem range_clamp_and_start_beyond_eof_witness :
    fsStat fsA [['a']] = some (.file [10, 20, 30, 40, 50] fileMeta) ∧
    (2 : Nat) < 5 ∧ (5 : Nat) ≤ 9 ∧
    (∃ body,
       getFiles fsA ['.', '/', 'a'] (some (some 2, some 9)) =
         .ranged 2 ((5 : Int) - 1) 5 ((5 : Int) - 1 - (2 : Int) + 1) body ∧
       body.length = 5 - 2) ∧
    (5 : Nat) ≤ 5 ∧
    getFiles fsA ['.', '/', 'a'] (some (some 5, some 9)) =
      .rangeStreamError 5 (min (9 : Int) ((5 : Int) - 1)) ∧
    (getFiles fsA ['.', '/', 'a'] (some (some 5, some 9))).deliveredBody =
      none :=
  ⟨by decide, by decide, by decide,
   range_clamp_and_start_beyond_eof.1 fsA ['.', '/', 'a'] [10, 20, 30, 40, 50]
     fileMeta 2 9 (by decide) (by decide) (by decide),
   by decide,
   (range_clamp_and_start_beyond_eof.2 fsA ['.', '/', 'a'] [10, 20, 30, 40, 50]
     fileMeta 5 9 (by decide) (by decide)).1,
   (range_clamp_and_start_beyond_eof.2 fsA ['.', '/', 'a'] [10, 20, 30, 40, 50]
     fileMeta 5 9 (by decide) (by decide)).2⟩

/-- C6: DELETE /files unlinks a regular file, removes a directory with
its entire subtree, answers 200 in both cases, and answers 404 touching
neither filesystem nor database when the path names nothing. -/
theorem delete_semantics :
    (∀ (fs : Fs) (db : Db) (r : JStr),
       fsStat fs (canonComps (codeNorm r)) = none →
       (deleteFiles fs db r).resp = .notFound ∧
       (deleteFiles fs db r).fs = fs ∧ (deleteFiles fs db r).db = db) ∧
    (∀ (fs : Fs) (db : Db) (r : JStr) (c : List Nat) (m : Meta),
       fsStat fs (canonComps (codeNorm r)) = some (.file c m) →
       (deleteFiles fs db r).resp = .deleted ∧
       (deleteFiles fs db r).fs (canonComps (codeNorm r)) = none ∧
       (∀ q, q ≠ canonComps (codeNorm r) → (deleteFiles fs db r).fs q = fs q)) ∧
    (∀ (fs : Fs) (db : Db) (r : JStr) (m : Meta),
       fsStat fs (canonComps (codeNorm r)) = some (.dir m) →
       (deleteFiles fs db r).resp = .deleted ∧
       (∀ q, (canonComps (codeNorm r)).isPrefixOf q = true →
          (deleteFiles fs db r).fs q = none) ∧
       (∀ q, (canonComps (codeNorm r)).isPrefixOf q = false →
          (deleteFiles fs db r).fs q = fs q)) := by
  refine ⟨?_, ?_, ?_⟩
  · intro fs db r h
    simp [deleteFiles, h]
  · intro fs db r c m h
    simp only [deleteFiles, h]
    exact ⟨by trivial, fsSet_self _ _ _, fun q hq => by simp [fsSet, hq]⟩
  · intro fs db r m h
    simp only [deleteFiles, h]
    refine ⟨by trivial, ?_, ?_⟩
    · intro q hq; simp [removeSubtree, hq]
    · intro q hq; simp [removeSubtree, hq]

/-- C6 witness: deleting the missing `./z` answers 404 and changes
nothing; deleting the file `./a` unlinks exactly it; deleting the
directory `./d` removes it and its child `./d/e`. -/
theorem delete_semantics_witness :
    fsStat fsA [['z']] = none ∧
    (deleteFiles fsA dbEmpty ['.', '/', 'z']).resp = .notFound ∧
    (deleteFiles fsA dbEmpty ['.', '/', 'z']).fs = fsA ∧
    (deleteFiles fsA dbEmpty ['.', '/', 'z']).db = dbEmpty ∧
    (deleteFiles fsA dbEmpty ['.', '/', 'a']).resp = .deleted ∧
    (deleteFiles fsA dbEmpty ['.', '/', 'a']).fs [['a']] = none ∧
    (deleteFiles fsDir dbEmpty ['.', '/', 'd']).resp = .deleted ∧
    (deleteFiles fsDir dbEmpty ['.', '/', 'd']).fs [['d']] = none ∧
    (deleteFiles fsDir dbEmpty ['.', '/', 'd']).fs [['d'], ['e']] = none :=
  ⟨by decide,
   (delete_semantics.1 fsA dbEmpty ['.', '/', 'z'] (by decide)).1,
   (delete_semantics.1 fsA dbEmpty ['.', '/', 'z'] (by decide)).2.1,
   (delete_semantics.1 fsA dbEmpty ['.', '/', 'z'] (by decide)).2.2,
   (delete_semantics.2.1 fsA dbEmpty ['.', '/', 'a'] [10, 20, 30, 40, 50]
      fileMeta (by decide)).1,
   (delete_semantics.2.1 fsA dbEmpty ['.', '/', 'a'] [10, 20, 30, 40, 50]
      fileMeta (by decide)).2.1,
   (delete_semantics.2.2 fsDir dbEmpty ['.', '/', 'd'] dirMeta (by decide)).1,
   (delete_semantics.2.2 fsDir dbEmpty ['.', '/', 'd'] dirMeta (by decide)).2.1
     [['d']] (by decide),
   (delete_semantics.2.2 fsDir dbEmpty ['.', '/', 'd'] dirMeta (by decide)).2.1
     [['d'], ['e']] (by decide)⟩

/-- C7: (amended) POST /mkdir answers 409 creating nothing when the
target already exists; when the target is missing on disk and its
parent exists, the directory is created, and the 201 success status is
returned provided the metadata db tracks no row at `relPath` — with a
stale row the INSERT of `FileDAO.createDirectory` rejects
(UNIQUE constraint) and the route answers 500 after the directory has
already been physically created. -/
theorem mkdir_semantics :
    (∀ (fs : Fs) (db : Db) (r : JStr),
       fsExists fs ((canonComps r).dropLast) = true →
       fsExists fs (canonComps r) = true →
       (mkdirHandler fs db r).resp = .err 409 ∧
       (mkdirHandler fs db r).fs = fs ∧ (mkdirHandler fs db r).db = db) ∧
    (∀ (fs : Fs) (db : Db) (r : JStr),
       fsExists fs ((canonComps r).dropLast) = true →
       fsExists fs (canonComps r) = false →
       db r = none →
       (mkdirHandler fs db r).resp = .created ∧
       (mkdirHandler fs db r).fs (canonComps r) = some (.dir dirMeta)) ∧
    (∀ (fs : Fs) (db : Db) (r : JStr) (row0 : Row),
       fsExists fs ((canonComps r).dropLast) = true →
       fsExists fs (canonComps r) = false →
       db r = some row0 →
       (mkdirHandler fs db r).resp = .err 500 ∧
       (mkdirHandler fs db r).fs (canonComps r) = some (.dir dirMeta)) := by
  refine ⟨?_, ?_, ?_⟩
  · intro fs db r hpar hex
    simp only [mkdirHandler, hpar, hex]
    norm_num
  · intro fs db r hpar hex hdb
    simp only [mkdirHandler, hpar, hex, daoCreateDirectory, hdb,
      Option.isSome_none, Bool.false_eq_true, if_false]
    norm_num
    exact fsSet_self _ _ _
  · intro fs db r row0 hpar hex hdb
    simp only [mkdirHandler, hpar, hex, daoCreateDirectory, hdb,
      Option.isSome_some, if_true]
    norm_num
    exact fsSet_self _ _ _

/-- C7: (counterexample) with a stale metadata row tracked at `./d/f`
and no such directory on disk, POST /mkdir physically creates the
directory but the INSERT rejects and the route answers 500 — not the
success status the claim asserts. -/
theorem mkdir_stale_row_counterexample :
    (mkdirHandler fsDir (dbTracking [['.', '/', 'd', '/', 'f']])
       ['.', '/', 'd', '/', 'f']).resp = .err 500 ∧
    ¬ ((mkdirHandler fsDir (dbTracking [['.', '/', 'd', '/', 'f']])
          ['.', '/', 'd', '/', 'f']).resp = .created) ∧
    (mkdirHandler fsDir (dbTracking [['.', '/', 'd', '/', 'f']])
       ['.', '/', 'd', '/', 'f']).fs [['d'], ['f']] = some (.dir dirMeta) := by
  refine ⟨by decide, by decide, by decide⟩

/-- C7 witness: creating the existing `./d` answers 409 and leaves the
tree untouched; creating the fresh, untracked `./d/f` under the
existing `./d` answers 201 and the directory appears; with a stale row
at `./d/f` the route answers 500 but the directory is created anyway. -/
theorem mkdir_semantics_witness :
    fsExists fsDir (([['d']] : CPath).dropLast) = true ∧
    fsExists fsDir [['d']] = true ∧
    (mkdirHandler fsDir dbEmpty ['.', '/', 'd']).resp = .err 409 ∧
    (mkdirHandler fsDir dbEmpty ['.', '/', 'd']).fs = fsDir ∧
    fsExists fsDir [['d'], ['f']] = false ∧
    dbEmpty (['.', '/', 'd', '/', 'f'] : JStr) = none ∧
    (mkdirHandler fsDir dbEmpty ['.', '/', 'd', '/', 'f']).resp = .created ∧
    (mkdirHandler fsDir dbEmpty ['.', '/', 'd', '/', 'f']).fs [['d'], ['f']] =
      some (.dir dirMeta) ∧
    dbTracking [['.', '/', 'd', '/', 'f']] ['.', '/', 'd', '/', 'f'] =
      some (sampleRow ['.', '/', 'd', '/', 'f']) ∧
    (mkdirHandler fsDir (dbTracking [['.', '/', 'd', '/', 'f']])
       ['.', '/', 'd', '/', 'f']).resp = .err 500 :=
  ⟨by decide, by decide,
   (mkdir_semantics.1 fsDir dbEmpty ['.', '/', 'd'] (by decide) (by decide)).1,
   (mkdir_semantics.1 fsDir dbEmpty ['.', '/', 'd'] (by decide) (by decide)).2.1,
   by decide, by decide,
   (mkdir_semantics.2.1 fsDir dbEmpty ['.', '/', 'd', '/', 'f']
      (by decide) (by decide) (by decide)).1,
   (mkdir_semantics.2.1 fsDir dbEmpty ['.', '/', 'd', '/', 'f']
      (by decide) (by decide) (by decide)).2,
   by decide,
   (mkdir_semantics.2.2 fsDir (dbTracking [['.', '/', 'd', '/', 'f']])
      ['.', '/', 'd', '/', 'f'] (sampleRow ['.', '/', 'd', '/', 'f'])
      (by decide) (by decide) (by decide)).1⟩

/-- C5: (amended) PATCH /files/rename with an existing file source A
and an existing file destination B succeeds and overwrites B
(afterwards B holds A's former content and A is gone); and a rename
whose old path starts with `/.Trash-` and whose destination parent
directory is missing creates that parent directory and completes with
200 provided the metadata db tracks no row under the destination path —
with such a stale row `FileDAO.rename`'s UNIQUE-constraint rejection
makes the route answer 500 after the parent was created and the file
moved on disk. -/
theorem rename_overwrite_and_trash_restore :
    (∀ (fs : Fs) (db : Db) (oldR newR : JStr) (ca : List Nat) (ma : Meta)
       (cb : List Nat) (mb : Meta),
       fsStat fs (canonComps (codeNorm oldR)) = some (.file ca ma) →
       fsStat fs (canonComps (codeNorm newR)) = some (.file cb mb) →
       fsExists fs ((canonComps (codeNorm newR)).dropLast) = true →
       canonComps (codeNorm oldR) ≠ canonComps (codeNorm newR) →
       (canonComps (codeNorm newR)).isPrefixOf (canonComps (codeNorm oldR)) =
         false →
       (renameFiles fs db oldR newR).resp = .ok ∧
       (renameFiles fs db oldR newR).fs (canonComps (codeNorm newR)) =
         some (.file ca ma) ∧
       (renameFiles fs db oldR newR).fs (canonComps (codeNorm oldR)) = none) ∧
    (∀ (fs : Fs) (db : Db) (oldR newR : JStr) (ca : List Nat) (ma : Meta),
       trashPat.isPrefixOf (codeNorm oldR) = true →
       fsStat fs (canonComps (codeNorm oldR)) = some (.file ca ma) →
       fsStat fs (canonComps (codeNorm newR)) = none →
       fsExists fs ((canonComps (codeNorm newR)).dropLast) = false →
       (canonComps (codeNorm oldR)).isPrefixOf
         ((canonComps (codeNorm newR)).dropLast) = false →
       (canonComps (codeNorm newR)).isPrefixOf (canonComps (codeNorm oldR)) =
         false →
       db (codeNorm newR) = none →
       (renameFiles fs db oldR newR).resp = .ok ∧
       (renameFiles fs db oldR newR).fs ((canonComps (codeNorm newR)).dropLast) =
         some (.dir dirMeta) ∧
       (renameFiles fs db oldR newR).fs (canonComps (codeNorm newR)) =
         some (.file ca ma) ∧
       (renameFiles fs db oldR newR).fs (canonComps (codeNorm oldR)) = none) := by
  constructor
  · intro fs db oldR newR ca ma cb mb h2 h3 h5 h4 h6
    have hcO_ne : canonComps (codeNorm oldR) ≠ [] := fsStat_ne_nil h2
    have hcN_ne : canonComps (codeNorm newR) ≠ [] := fsStat_ne_nil h3
    have hoR : codeNorm oldR ≠ [] := fun h => hcO_ne (by rw [h]; rfl)
    have hnR : codeNorm newR ≠ [] := fun h => hcN_ne (by rw [h]; rfl)
    have hpar1 : fsExists (fsSet fs (canonComps (codeNorm newR)) none)
        ((canonComps (codeNorm newR)).dropLast) = true := by
      rw [fsExists_fsSet_ne _ _ _ _ (dropLast_ne_self hcN_ne)]
      exact h5
    have hstat1 : fsStat (fsSet fs (canonComps (codeNorm newR)) none)
        (canonComps (codeNorm oldR)) = some (.file ca ma) := by
      rw [fsStat_fsSet_ne _ _ _ _ h4]
      exact h2
    obtain ⟨d1, hd1⟩ := daoRename_eq_some_of_dest_none
      (daoDeleteFile db (codeNorm newR)) (codeNorm oldR) (codeNorm newR)
      (daoDeleteFile_self db (codeNorm newR))
    simp only [renameFiles]
    rw [if_neg (by push_neg; exact ⟨hoR, hnR⟩)]
    simp only [h3, Option.isSome_some, if_true]
    rw [if_pos (Or.inl hpar1), if_pos hpar1]
    simp only [hstat1, hd1]
    refine ⟨by trivial, ?_, ?_⟩
    · show moveSubtree (fsSet fs (canonComps (codeNorm newR)) none)
        (canonComps (codeNorm oldR)) (canonComps (codeNorm newR))
        (canonComps (codeNorm newR)) = some (.file ca ma)
      simp only [moveSubtree, isPrefixOf_self, if_true, List.drop_length,
        List.append_nil]
      rw [show fsSet fs (canonComps (codeNorm newR)) none
          (canonComps (codeNorm oldR)) = fs (canonComps (codeNorm oldR)) from
        by simp [fsSet, h4]]
      exact fs_of_fsStat h2 hcO_ne
    · show moveSubtree (fsSet fs (canonComps (codeNorm newR)) none)
        (canonComps (codeNorm oldR)) (canonComps (codeNorm newR))
        (canonComps (codeNorm oldR)) = none
      simp [moveSubtree, h6, isPrefixOf_self]
  · intro fs db oldR newR ca ma hTrash h2 h3 h4 h5 h6 hdbN
    have hcO_ne : canonComps (codeNorm oldR) ≠ [] := fsStat_ne_nil h2
    have hstatp : fsStat fs ((canonComps (codeNorm newR)).dropLast) = none := by
      cases hx : fsStat fs ((canonComps (codeNorm newR)).dropLast) with
      | none => rfl
      | some e => rw [fsExists, hx] at h4; simp at h4
    have hparent_ne : (canonComps (codeNorm newR)).dropLast ≠ [] :=
      fsStat_none_ne_nil hstatp
    have hfsparent : fs ((canonComps (codeNorm newR)).dropLast) = none := by
      simpa [fsStat, hparent_ne] using hstatp
    have hcN_ne : canonComps (codeNorm newR) ≠ [] := by
      intro h
      exact hparent_ne (by rw [h]; rfl)
    have hoR : codeNorm oldR ≠ [] := fun h => hcO_ne (by rw [h]; rfl)
    have hnR : codeNorm newR ≠ [] := fun h => hcN_ne (by rw [h]; rfl)
    have hfsO : fs (canonComps (codeNorm oldR)) = some (.file ca ma) :=
      fs_of_fsStat h2 hcO_ne
    have hstat2 : fsStat (mkdirRec fs ((canonComps (codeNorm newR)).dropLast))
        (canonComps (codeNorm oldR)) = some (.file ca ma) := by
      simp [fsStat, hcO_ne, mkdirRec, hfsO]
    obtain ⟨d1, hd1⟩ := daoRename_eq_some_of_dest_none db
      (codeNorm oldR) (codeNorm newR) hdbN
    simp only [renameFiles]
    rw [if_neg (by push_neg; exact ⟨hoR, hnR⟩)]
    simp only [h3, Option.isSome_none, Bool.false_eq_true, if_false]
    rw [if_pos (Or.inr hTrash), if_neg (by simp [h4])]
    simp only [hstat2, hd1]
    have hc1 : ¬ (List.isPrefixOf (canonComps (codeNorm newR))
        ((canonComps (codeNorm newR)).dropLast) = true) := by
      rw [isPrefixOf_dropLast_self _ hcN_ne]
      exact Bool.false_ne_true
    have hc2 : ¬ (List.isPrefixOf (canonComps (codeNorm oldR))
        ((canonComps (codeNorm newR)).dropLast) = true) := by
      rw [h5]
      exact Bool.false_ne_true
    have hc6 : ¬ (List.isPrefixOf (canonComps (codeNorm newR))
        (canonComps (codeNorm oldR)) = true) := by
      rw [h6]
      exact Bool.false_ne_true
    refine ⟨by trivial, ?_, ?_, ?_⟩
    · show moveSubtree (mkdirRec fs ((canonComps (codeNorm newR)).dropLast))
        (canonComps (codeNorm oldR)) (canonComps (codeNorm newR))
        ((canonComps (codeNorm newR)).dropLast) = some (.dir dirMeta)
      simp only [moveSubtree]
      rw [if_neg hc1, if_neg hc2]
      simp only [mkdirRec]
      rw [if_pos ⟨hparent_ne, isPrefixOf_self _, hfsparent⟩]
    · show moveSubtree (mkdirRec fs ((canonComps (codeNorm newR)).dropLast))
        (canonComps (codeNorm oldR)) (canonComps (codeNorm newR))
        (canonComps (codeNorm newR)) = some (.file ca ma)
      simp only [moveSubtree]
      rw [if_pos (isPrefixOf_self _), List.drop_length, List.append_nil]
      simp only [mkdirRec]
      rw [if_neg (fun hx => by rw [hfsO] at hx; simp at hx)]
      exact hfsO
    · show moveSubtree (mkdirRec fs ((canonComps (codeNorm newR)).dropLast))
        (canonComps (codeNorm oldR)) (canonComps (codeNorm newR))
        (canonComps (codeNorm oldR)) = none
      simp only [moveSubtree]
      rw [if_neg hc6, if_pos (isPrefixOf_self _)]

/-- C5: (counterexample) restoring `/.Trash-1/x` to `./d/x` with `./d`
missing on disk but stale metadata rows tracked under both the source
and the destination keys: the parent directory is created and the file
moved on disk, yet `FileDAO.rename` hits the UNIQUE constraint and the
route answers 500 — the request fails, contradicting the claim's
"created rather than the request failing". -/
theorem rename_trash_restore_stale_row_counterexample :
    (renameFiles fsTrash
       (dbTracking [['/', '.', 'T', 'r', 'a', 's', 'h', '-', '1', '/', 'x'],
                    ['.', '/', 'd', '/', 'x']])
       ['/', '.', 'T', 'r', 'a', 's', 'h', '-', '1', '/', 'x']
       ['.', '/', 'd', '/', 'x']).resp = .err 500 ∧
    ¬ ((renameFiles fsTrash
          (dbTracking [['/', '.', 'T', 'r', 'a', 's', 'h', '-', '1', '/', 'x'],
                       ['.', '/', 'd', '/', 'x']])
          ['/', '.', 'T', 'r', 'a', 's', 'h', '-', '1', '/', 'x']
          ['.', '/', 'd', '/', 'x']).resp = .ok) ∧
    (renameFiles fsTrash
       (dbTracking [['/', '.', 'T', 'r', 'a', 's', 'h', '-', '1', '/', 'x'],
                    ['.', '/', 'd', '/', 'x']])
       ['/', '.', 'T', 'r', 'a', 's', 'h', '-', '1', '/', 'x']
       ['.', '/', 'd', '/', 'x']).fs [['d']] = some (.dir dirMeta) := by
  refine ⟨by decide, by decide, by decide⟩

/-- C5 witness: renaming `./a` onto the existing `./b` overwrites it
(`./b` gets `./a`'s old bytes, `./a` vanishes); renaming `/.Trash-1/x`
to `./d/x` with `./d` missing and no tracked destination row creates
`./d` and completes with 200. -/
theorem rename_overwrite_and_trash_restore_witness :
    fsStat fsAB [['a']] = some (.file [10, 20, 30, 40, 50] fileMeta) ∧
    fsStat fsAB [['b']] = some (.file [7, 7] fileMeta) ∧
    (renameFiles fsAB dbEmpty ['.', '/', 'a'] ['.', '/', 'b']).resp = .ok ∧
    (renameFiles fsAB dbEmpty ['.', '/', 'a'] ['.', '/', 'b']).fs [['b']] =
      some (.file [10, 20, 30, 40, 50] fileMeta) ∧
    (renameFiles fsAB dbEmpty ['.', '/', 'a'] ['.', '/', 'b']).fs [['a']] =
      none ∧
    trashPat.isPrefixOf
      (codeNorm ['/', '.', 'T', 'r', 'a', 's', 'h', '-', '1', '/', 'x']) =
      true ∧
    fsExists fsTrash [['d']] = false ∧
    dbEmpty (codeNorm ['.', '/', 'd', '/', 'x']) = none ∧
    (renameFiles fsTrash dbEmpty
       ['/', '.', 'T', 'r', 'a', 's', 'h', '-', '1', '/', 'x']
       ['.', '/', 'd', '/', 'x']).resp = .ok ∧
    (renameFiles fsTrash dbEmpty
       ['/', '.', 'T', 'r', 'a', 's', 'h', '-', '1', '/', 'x']
       ['.', '/', 'd', '/', 'x']).fs [['d']] = some (.dir dirMeta) ∧
    (renameFiles fsTrash dbEmpty
       ['/', '.', 'T', 'r', 'a', 's', 'h', '-', '1', '/', 'x']
       ['.', '/', 'd', '/', 'x']).fs [['d'], ['x']] =
      some (.file [5] fileMeta) :=
  ⟨by decide, by decide,
   (rename_overwrite_and_trash_restore.1 fsAB dbEmpty ['.', '/', 'a']
      ['.', '/', 'b'] [10, 20, 30, 40, 50] fileMeta [7, 7] fileMeta
      (by decide) (by decide) (by decide) (by decide) (by decide)).1,
   (rename_overwrite_and_trash_restore.1 fsAB dbEmpty ['.', '/', 'a']
      ['.', '/', 'b'] [10, 20, 30, 40, 50] fileMeta [7, 7] fileMeta
      (by decide) (by decide) (by decide) (by decide) (by decide)).2.1,
   (rename_overwrite_and_trash_restore.1 fsAB dbEmpty ['.', '/', 'a']
      ['.', '/', 'b'] [10, 20, 30, 40, 50] fileMeta [7, 7] fileMeta
      (by decide) (by decide) (by decide) (by decide) (by decide)).2.2,
   by decide, by decide, by decide,
   (rename_overwrite_and_trash_restore.2 fsTrash dbEmpty
      ['/', '.', 'T', 'r', 'a', 's', 'h', '-', '1', '/', 'x']
      ['.', '/', 'd', '/', 'x'] [5] fileMeta
      (by decide) (by decide) (by decide) (by decide) (by decide)
      (by decide) (by decide)).1,
   (rename_overwrite_and_trash_restore.2 fsTrash dbEmpty
      ['/', '.', 'T', 'r', 'a', 's', 'h', '-', '1', '/', 'x']
      ['.', '/', 'd', '/', 'x'] [5] fileMeta
      (by decide) (by decide) (by decide) (by decide) (by decide)
      (by decide) (by decide)).2.1,
   (rename_overwrite_and_trash_restore.2 fsTrash dbEmpty
      ['/', '.', 'T', 'r', 'a', 's', 'h', '-', '1', '/', 'x']
      ['.', '/', 'd', '/', 'x'] [5] fileMeta
      (by decide) (by decide) (by decide) (by decide) (by decide)
      (by decide) (by decide)).2.2.1⟩

end BackendModel
